import Mathlib

/-!
Shallow embedding of `birb.py` (the BIRB build orchestrator).

The program is a synchronous, single-threaded sequence of configuration
loading and shell invocations.  We model every observable action of one
run (console status lines, spawned commands together with their success
bit, manifest writes) as an `Event`, and every external dependency (the
outcome of a shell command, the outcome of the two `git` subprocess
calls, the content returned by each `load_birb_json` call site, the
listing of the output directory) as a field of an `Env` record.  The
process working directory is threaded explicitly as a stack of path
components, where `os.chdir(BIRB_DIR)` pushes and `os.chdir("..")` pops.
-/

namespace Birb

/-- The `versioning` section of `birb.json` (see `create_birb_json`). -/
structure Versioning where
  auto_increment : Bool
  increment_type : String
  current_version : String
deriving DecidableEq, Repr

/-- The `build` section of `birb.json`.  `platform_build_commands` is a
Python dict; its insertion order is modelled as an association list. -/
structure BuildSection where
  custom_build_command : String
  platform_build_commands : List (String × Option String)
  output_directory : String
  clean_before_build : Bool
deriving DecidableEq, Repr

/-- The `git_integration` section of `birb.json`. -/
structure GitIntegration where
  repo_name : String
  branch : String
  auto_commit : Bool
  commit_message_template : String
  vcs_push_command : List String
deriving DecidableEq, Repr

/-- The whole `birb.json` manifest. -/
structure BirbConfig where
  project_name : String
  versioning : Versioning
  build : BuildSection
  git_integration : GitIntegration
deriving DecidableEq, Repr

/-- The characters of the `{version}` replacement field. -/
def versionPlaceholder : List Char := ['{', 'v', 'e', 'r', 's', 'i', 'o', 'n', '}']

/-- The characters of the `{platform}` replacement field. -/
def platformPlaceholder : List Char := ['{', 'p', 'l', 'a', 't', 'f', 'o', 'r', 'm', '}']

/-- The total carrier of the hook's message computation: one
left-to-right scan replacing the fields `{version}` and `{platform}`.
On templates whose only brace occurrences are these two fields it
computes exactly what `str.format(version=..., platform=...)` returns
on line 122 of `birb.py`; `pyFormat` below additionally models the
raising behaviour of `str.format` on any other brace, and the two are
proved to agree on the brace-disciplined templates. -/
def substAux (v p : List Char) (l : List Char) : List Char :=
  match l with
  | [] => []
  | c :: rest =>
    if versionPlaceholder <+: (c :: rest) then
      v ++ substAux v p ((c :: rest).drop versionPlaceholder.length)
    else if platformPlaceholder <+: (c :: rest) then
      p ++ substAux v p ((c :: rest).drop platformPlaceholder.length)
    else
      c :: substAux v p rest
termination_by l.length
decreasing_by
  · simp [versionPlaceholder, List.length_drop]
    omega
  · simp [platformPlaceholder, List.length_drop]
    omega
  · simp

/-- Fallible model of `str.format(version=..., platform=...)`
(line 122 of `birb.py`): a `{{` or `}}` pair is an escaped literal
brace, the plain fields `{version}` and `{platform}` are substituted
(the inserted value is not re-scanned), and any other brace makes the
call raise, modelled as `none`: a stray `}` or an unclosed field is a
`ValueError`, an unknown field name a `KeyError`.  A known field
carrying conversion or format-spec syntax is conservatively mapped to
the raising case as well, so the model never reports success where the
program could raise. -/
def pyFormat (v p : List Char) (l : List Char) : Option (List Char) :=
  match l with
  | [] => some []
  | c :: rest =>
    if ['{', '{'] <+: (c :: rest) then
      (fun out => '{' :: out) <$> pyFormat v p ((c :: rest).drop 2)
    else if ['}', '}'] <+: (c :: rest) then
      (fun out => '}' :: out) <$> pyFormat v p ((c :: rest).drop 2)
    else if versionPlaceholder <+: (c :: rest) then
      (fun out => v ++ out) <$> pyFormat v p ((c :: rest).drop versionPlaceholder.length)
    else if platformPlaceholder <+: (c :: rest) then
      (fun out => p ++ out) <$> pyFormat v p ((c :: rest).drop platformPlaceholder.length)
    else if c = '{' ∨ c = '}' then
      none
    else
      (fun out => c :: out) <$> pyFormat v p rest
termination_by l.length
decreasing_by
  · simp [List.length_drop]
    omega
  · simp [List.length_drop]
    omega
  · simp [versionPlaceholder, List.length_drop]
    omega
  · simp [platformPlaceholder, List.length_drop]
    omega
  · simp

/-- `commit_message_template.format(version=version, platform=platform)`
(line 122 of `birb.py`), as the hook computes it on the brace-disciplined
fragment where `format` cannot raise (see `pyFormat` for the raising
behaviour on other templates). -/
def formatCommitMessage (template version platform : String) : String :=
  String.mk (substAux version.toList platform.toList template.toList)

/-- One direct child of the output directory, together with the part of
the external file-system state that decides the outcome of the deletion
attempted for it: whether a file or symlink may be unlinked (permission),
and whether a directory is empty (`os.rmdir` fails on a non-empty one)
and removable. -/
inductive FSEntry where
  | file (name : String) (deletable : Bool)
  | symlink (name : String) (deletable : Bool)
  | dir (name : String) (empty : Bool) (deletable : Bool)
deriving DecidableEq, Repr

/-- Observable actions of one run: each constructor corresponds to a
`print` line and/or a spawned subprocess (with its success bit) or a
manifest write in `birb.py`. -/
inductive Event where
  | loadError
  | cleanDeleted (name : String)
  | cleanFailed (name : String)
  | multiPlatformMode
  | customMode
  | buildingFor (platform : String)
  | execCmd (cmd : String) (ok : Bool)
  | hookCall (version platform : String)
  | commitMsg (msg : String)
  | gitAdd (ok : Bool)
  | gitCommitCmd (msg : String) (ok : Bool)
  | pushCmd (cmd : String) (ok : Bool)
  | writeManifest (config : BirbConfig)
deriving DecidableEq, Repr

/-- The external world of one run: the content returned by
`load_birb_json` at the engine call site (line 148) and at the hook call
site (line 114), and the outcome of each spawned subprocess.  Shell
commands (`subprocess.run(cmd, shell=True, check=True)`) are an oracle
from the command string to its success; the two fixed `git` argument
vectors each get one outcome bit. -/
structure Env where
  load0 : Option BirbConfig
  loadHook : Option BirbConfig
  shell_ok : String → Bool
  git_add_ok : Bool
  git_commit_ok : Bool

/-- `BIRB_DIR = '.birb'` (line 13). -/
def birbDirName : String := ".birb"

/-- `os.chdir("..")` on a working directory modelled as a stack of path
components (line 134). -/
def chdirUp : List String → List String
  | [] => []
  | _ :: rest => rest

/-- `execute_build_command` (lines 101-110): run one shell command,
report success or failure, and hand the outcome to the caller; a
non-zero exit is caught and turned into `None` (here: `false`). -/
def execute_build_command (sh : String → Bool) (command : String) : Bool × List Event :=
  (sh command, [Event.execCmd command (sh command)])

/-- `git_commit` (lines 112-134): re-load the manifest, no-op when it is
missing (after `load_birb_json` printed its error line) or when
`auto_commit` is false; otherwise format the commit message, enter
`.birb`, run `git add .` and `git commit -m`, and leave via the
`finally: os.chdir("..")`.  A failing git step is caught and reported;
the function returns nothing the caller could branch on. -/
def git_commit (env : Env) (cwd : List String) (version platform : String) :
    List String × List Event :=
  match env.loadHook with
  | none => (cwd, [Event.loadError])
  | some config =>
    if config.git_integration.auto_commit = false then (cwd, [])
    else
      let commit_message :=
        formatCommitMessage config.git_integration.commit_message_template version platform
      let inBirb := birbDirName :: cwd
      if env.git_add_ok = false then
        (chdirUp inBirb, [Event.commitMsg commit_message, Event.gitAdd false])
      else if env.git_commit_ok = false then
        (chdirUp inBirb,
         [Event.commitMsg commit_message, Event.gitAdd true,
          Event.gitCommitCmd commit_message false])
      else
        (chdirUp inBirb,
         [Event.commitMsg commit_message, Event.gitAdd true,
          Event.gitCommitCmd commit_message true])

/-- `execute_vcs_push_commands` (lines 136-144): run each push command in
order; a failure is caught, reported, and the loop continues. -/
def execute_vcs_push_commands (sh : String → Bool) (cmds : List String) : List Event :=
  cmds.map (fun command => Event.pushCmd command (sh command))

/-- One iteration of the cleanup loop (lines 160-169): unlink a file or
symlink, `os.rmdir` a directory, catch any exception and report the
entry as failed. -/
def cleanEntry : FSEntry → Event
  | FSEntry.file n d => if d then Event.cleanDeleted n else Event.cleanFailed n
  | FSEntry.symlink n d => if d then Event.cleanDeleted n else Event.cleanFailed n
  | FSEntry.dir n e d => if e && d then Event.cleanDeleted n else Event.cleanFailed n

/-- The cleanup stage (lines 157-169): `none` models an absent output
directory (`os.path.exists` false, nothing happens); otherwise every
direct child is processed in listing order. -/
def cleanOldBuilds : Option (List FSEntry) → List Event
  | none => []
  | some entries => entries.map cleanEntry

/-- The body of the multi-platform loop (lines 174-182) for one
`(platform, command)` pair: skip a null command; otherwise run it, and on
success call `git_commit` and then, unconditionally after it,
`execute_vcs_push_commands`. -/
def buildTarget (env : Env) (version : String) (push_commands : List String)
    (cwd : List String) (target : String × Option String) : List String × List Event :=
  match target.2 with
  | none => (cwd, [])
  | some command =>
    let r := execute_build_command env.shell_ok command
    if r.1 then
      let g := git_commit env cwd version target.1
      (g.1,
       Event.buildingFor target.1 :: r.2
         ++ Event.hookCall version target.1 :: g.2
         ++ execute_vcs_push_commands env.shell_ok push_commands)
    else
      (cwd, Event.buildingFor target.1 :: r.2)

/-- Mode selection and dispatch of `build_project` (lines 171-191): if
any platform command is non-null, fold the loop body over the mapping in
insertion order; otherwise run the custom command once and, on success,
call the hook with the label `"custom"` followed by the push commands. -/
def buildPhase (env : Env) (config : BirbConfig) (cwd : List String) :
    List String × List Event :=
  if config.build.platform_build_commands.any (fun pc => pc.2.isSome) then
    config.build.platform_build_commands.foldl
      (fun acc pc =>
        let r := buildTarget env config.versioning.current_version
          config.git_integration.vcs_push_command acc.1 pc
        (r.1, acc.2 ++ r.2))
      (cwd, [Event.multiPlatformMode])
  else
    let r := execute_build_command env.shell_ok config.build.custom_build_command
    if r.1 then
      let g := git_commit env cwd config.versioning.current_version "custom"
      (g.1,
       Event.customMode :: r.2
         ++ Event.hookCall config.versioning.current_version "custom" :: g.2
         ++ execute_vcs_push_commands env.shell_ok config.git_integration.vcs_push_command)
    else
      (cwd, Event.customMode :: r.2)

/-- `build_project` (lines 146-191): load the manifest (abort with the
not-found error line when absent), run the cleanup stage when
`clean_before_build` is set, then dispatch on the build mode.  `fs` is
the listing of the output directory (`none` = absent); when
`output_directory` is the manifest directory `.birb` that listing can
contain the manifest file itself and the cleanup unlinks it — the
resulting on-disk state of the manifest is captured by
`manifest_after_build` below. -/
def build_project (env : Env) (fs : Option (List FSEntry)) (cwd : List String) :
    List String × List Event :=
  match env.load0 with
  | none => (cwd, [Event.loadError])
  | some config =>
    let cleanEvs := if config.build.clean_before_build then cleanOldBuilds fs else []
    let r := buildPhase env config cwd
    (r.1, cleanEvs ++ r.2)

/-- `os.path.join(output_dir, filename)` (line 161) names the manifest
path `.birb/birb.json` (line 14) exactly when the output directory is
the manifest directory and the child is named `birb.json`; paths are
compared literally (no normalization or symlink aliasing — runs relying
on aliased path spellings are outside the model).  Such a child is
unlinked by the cleanup loop when it is a file or symlink and the unlink
succeeds (lines 163-164). -/
def cleanUnlinksManifest (output_dir : String) (fs : Option (List FSEntry)) : Bool :=
  (output_dir == birbDirName) &&
    (match fs with
     | none => false
     | some entries =>
       entries.any fun en =>
         match en with
         | FSEntry.file n d => (n == "birb.json") && d
         | FSEntry.symlink n d => (n == "birb.json") && d
         | FSEntry.dir _ _ _ => false)

/-- The content of `.birb/birb.json` after a run of `build_project`, as
a function of its content before the run (the engine's load,
`env.load0`) and the output-directory listing: `build_project` opens the
manifest only for reading (lines 94-99, 114, 148), and its single
write-capable file operation is the cleanup loop (lines 159-169), whose
`os.unlink` removes the manifest file exactly when `clean_before_build`
is set and the cleanup, pointed at `.birb`, unlinks the child
`birb.json`; every other run leaves the file as loaded. -/
def manifest_after_build (env : Env) (fs : Option (List FSEntry)) : Option BirbConfig :=
  match env.load0 with
  | none => none
  | some config =>
    if config.build.clean_before_build
        && cleanUnlinksManifest config.build.output_directory fs then none
    else some config

/-- `platform_commands.get("custom", "make build")` (line 73).  In both
create flows the `custom` key, when present, holds a non-null command
(line 212), so the stored value is modelled as the string itself. -/
def dictGetCustom (m : List (String × Option String)) : String :=
  match m.find? (fun pc => pc.1 == "custom") with
  | some pc => pc.2.getD "make build"
  | none => "make build"

/-- `create_birb_json` (lines 60-90): the manifest document written to
`.birb/birb.json`, returned together with the write event. -/
def create_birb_json (project_name version : String) (generate_config : Bool)
    (platform_commands : List (String × Option String)) (output_dir : String)
    (clean_before_build : Bool) (repo_name branch : String)
    (vcs_push_command : List String) : BirbConfig × List Event :=
  let _ := generate_config
  let config : BirbConfig :=
    { project_name := project_name
      versioning :=
        { auto_increment := true, increment_type := "patch", current_version := version }
      build :=
        { custom_build_command := dictGetCustom platform_commands
          platform_build_commands := platform_commands
          output_directory := output_dir
          clean_before_build := clean_before_build }
      git_integration :=
        { repo_name := repo_name, branch := branch, auto_commit := true
          commit_message_template := "Release {version} for {platform}"
          vcs_push_command := vcs_push_command } }
  (config, [Event.writeManifest config])

/-- The answers typed at the prompts of `interactive_create`
(lines 193-227), in prompt order. -/
structure CreateAnswers where
  project_name : String
  version : String
  windows_cmd : String
  linux_cmd : String
  macos_cmd : String
  custom_cmd : String
  output_dir : String
  clean_answer : String
  repo_name : String
  branch : String
  push_commands : String
deriving DecidableEq, Repr

/-- Lines 204-208: `'null'` (case-insensitive) skips the platform, an
empty answer falls back to the default script name. -/
def promptedCommand (platform answer : String) : Option String :=
  if answer.toLower == "null" then none
  else some (if answer == "" then "build_script." ++ platform ++ ".sh" else answer)

/-- `interactive_create` (lines 193-227): assemble the platform mapping
(always ending with a non-null `"custom"` entry, line 212) and delegate
to `create_birb_json`. -/
def interactive_create (a : CreateAnswers) : BirbConfig × List Event :=
  let platform_commands :=
    [("windows", promptedCommand "windows" a.windows_cmd),
     ("linux", promptedCommand "linux" a.linux_cmd),
     ("macos", promptedCommand "macos" a.macos_cmd),
     ("custom", some (if a.custom_cmd == "" then "make build" else a.custom_cmd))]
  let output_dir := if a.output_dir == "" then "./builds" else a.output_dir
  let clean_before_build := a.clean_answer.toLower == "y"
  let branch := if a.branch == "" then "main" else a.branch
  let push_list :=
    if a.push_commands == "" then [] else (a.push_commands.splitOn ",").map String.trim
  create_birb_json a.project_name a.version true platform_commands output_dir
    clean_before_build a.repo_name branch push_list

/-- Recognizer for build-command execution events, used to count how
often `execute_build_command` ran. -/
def isExecEvent : Event → Bool
  | Event.execCmd _ _ => true
  | _ => false

/-- The manifest with the two versioning knobs `auto_increment` and
`increment_type` replaced, everything else unchanged. -/
def setIncrementFields (config : BirbConfig) (ai : Bool) (it : String) : BirbConfig :=
  { config with
    versioning :=
      { config.versioning with auto_increment := ai, increment_type := it } }

theorem substAux_nil (v p : List Char) : substAux v p [] = [] := by
  rw [substAux]

theorem substAux_cons (v p : List Char) (c : Char) (rest : List Char) :
    substAux v p (c :: rest) =
      if versionPlaceholder <+: c :: rest then
        v ++ substAux v p ((c :: rest).drop versionPlaceholder.length)
      else if platformPlaceholder <+: c :: rest then
        p ++ substAux v p ((c :: rest).drop platformPlaceholder.length)
      else c :: substAux v p rest := by
  rw [substAux]

theorem substAux_version (v p t : List Char) :
    substAux v p (versionPlaceholder ++ t) = v ++ substAux v p t := by
  show substAux v p ('{' :: (['v', 'e', 'r', 's', 'i', 'o', 'n', '}'] ++ t)) = _
  rw [substAux_cons]
  split
  · rfl
  · next h =>
    exact absurd ( List.prefix_append versionPlaceholder t) h

theorem substAux_platform (v p t : List Char) :
    substAux v p (platformPlaceholder ++ t) = p ++ substAux v p t := by
  show substAux v p ('{' :: (['p', 'l', 'a', 't', 'f', 'o', 'r', 'm', '}'] ++ t)) = _
  rw [substAux_cons]
  split
  · next h =>
    exfalso
    rw [show versionPlaceholder = '{' :: ['v', 'e', 'r', 's', 'i', 'o', 'n', '}'] from rfl,
      List.cons_prefix_cons] at h
    obtain ⟨-, h2⟩ := h
    simp only [List.cons_append, List.cons_prefix_cons] at h2
    exact absurd h2.1 (by decide)
  · split
    · rfl
    · next h =>
      exact absurd ( List.prefix_append platformPlaceholder t) h

theorem substAux_skip (v p : List Char) (a t : List Char) (ha : '{' ∉ a) :
    substAux v p (a ++ t) = a ++ substAux v p t := by
  induction a with
  | nil => simp
  | cons c a' ih =>
    rw [List.mem_cons] at ha
    push_neg at ha
    obtain ⟨hc, ha'⟩ := ha
    rw [List.cons_append, substAux_cons]
    have h1 : ¬ versionPlaceholder <+: c :: (a' ++ t) := by
      intro h
      rw [show versionPlaceholder = '{' :: ['v', 'e', 'r', 's', 'i', 'o', 'n', '}'] from rfl,
        List.cons_prefix_cons] at h
      exact hc h.1
    have h2 : ¬ platformPlaceholder <+: c :: (a' ++ t) := by
      intro h
      rw [show platformPlaceholder = '{' :: ['p', 'l', 'a', 't', 'f', 'o', 'r', 'm', '}'] from
        rfl, List.cons_prefix_cons] at h
      exact hc h.1
    rw [if_neg h1, if_neg h2, ih ha', List.cons_append]

theorem substAux_closed (v p a : List Char) (ha : '{' ∉ a) :
    substAux v p a = a := by
  have := substAux_skip v p a [] ha
  rw [List.append_nil] at this
  rw [this, substAux_nil, List.append_nil]

theorem substAux_version_platform (v p a b c : List Char)
    (ha : '{' ∉ a) (hb : '{' ∉ b) (hc : '{' ∉ c) :
    substAux v p (a ++ (versionPlaceholder ++ (b ++ (platformPlaceholder ++ c))))
      = a ++ (v ++ (b ++ (p ++ c))) := by
  rw [substAux_skip v p a _ ha, substAux_version, substAux_skip v p b _ hb,
    substAux_platform, substAux_closed v p c hc]

theorem substAux_platform_version (v p a b c : List Char)
    (ha : '{' ∉ a) (hb : '{' ∉ b) (hc : '{' ∉ c) :
    substAux v p (a ++ (platformPlaceholder ++ (b ++ (versionPlaceholder ++ c))))
      = a ++ (p ++ (b ++ (v ++ c))) := by
  rw [substAux_skip v p a _ ha, substAux_platform, substAux_skip v p b _ hb,
    substAux_version, substAux_closed v p c hc]

theorem brace_not_mem_of_infix {l out : List Char} (hmem : '{' ∈ l)
    (hout : '{' ∉ out) : ¬ l <:+: out := by
  intro h
  exact hout (h.subset hmem)

theorem pyFormat_nil (v p : List Char) : pyFormat v p [] = some [] := by
  rw [pyFormat]

theorem pyFormat_cons (v p : List Char) (c : Char) (rest : List Char) :
    pyFormat v p (c :: rest) =
      if ['{', '{'] <+: c :: rest then
        (fun out => '{' :: out) <$> pyFormat v p ((c :: rest).drop 2)
      else if ['}', '}'] <+: c :: rest then
        (fun out => '}' :: out) <$> pyFormat v p ((c :: rest).drop 2)
      else if versionPlaceholder <+: c :: rest then
        (fun out => v ++ out) <$> pyFormat v p ((c :: rest).drop versionPlaceholder.length)
      else if platformPlaceholder <+: c :: rest then
        (fun out => p ++ out) <$> pyFormat v p ((c :: rest).drop platformPlaceholder.length)
      else if c = '{' ∨ c = '}' then
        none
      else
        (fun out => c :: out) <$> pyFormat v p rest := by
  rw [pyFormat]

theorem pyFormat_version (v p t : List Char) :
    pyFormat v p (versionPlaceholder ++ t)
      = (fun out => v ++ out) <$> pyFormat v p t := by
  show pyFormat v p ('{' :: (['v', 'e', 'r', 's', 'i', 'o', 'n', '}'] ++ t)) = _
  rw [pyFormat_cons]
  have h1 : ¬ ['{', '{'] <+: '{' :: (['v', 'e', 'r', 's', 'i', 'o', 'n', '}'] ++ t) := by
    intro hx
    rw [List.cons_prefix_cons] at hx
    obtain ⟨-, hx⟩ := hx
    simp only [List.cons_append, List.cons_prefix_cons] at hx
    exact absurd hx.1 (by decide)
  have h2 : ¬ ['}', '}'] <+: '{' :: (['v', 'e', 'r', 's', 'i', 'o', 'n', '}'] ++ t) := by
    intro hx
    rw [List.cons_prefix_cons] at hx
    exact absurd hx.1 (by decide)
  rw [if_neg h1, if_neg h2]
  split
  · rfl
  · next h =>
    exact absurd ( List.prefix_append versionPlaceholder t) h

theorem pyFormat_platform (v p t : List Char) :
    pyFormat v p (platformPlaceholder ++ t)
      = (fun out => p ++ out) <$> pyFormat v p t := by
  show pyFormat v p ('{' :: (['p', 'l', 'a', 't', 'f', 'o', 'r', 'm', '}'] ++ t)) = _
  rw [pyFormat_cons]
  have h1 : ¬ ['{', '{'] <+: '{' :: (['p', 'l', 'a', 't', 'f', 'o', 'r', 'm', '}'] ++ t) := by
    intro hx
    rw [List.cons_prefix_cons] at hx
    obtain ⟨-, hx⟩ := hx
    simp only [List.cons_append, List.cons_prefix_cons] at hx
    exact absurd hx.1 (by decide)
  have h2 : ¬ ['}', '}'] <+: '{' :: (['p', 'l', 'a', 't', 'f', 'o', 'r', 'm', '}'] ++ t) := by
    intro hx
    rw [List.cons_prefix_cons] at hx
    exact absurd hx.1 (by decide)
  have h3 : ¬ versionPlaceholder <+: '{' :: (['p', 'l', 'a', 't', 'f', 'o', 'r', 'm', '}'] ++ t) := by
    intro hx
    rw [show versionPlaceholder = '{' :: ['v', 'e', 'r', 's', 'i', 'o', 'n', '}'] from rfl,
      List.cons_prefix_cons] at hx
    obtain ⟨-, hx⟩ := hx
    simp only [List.cons_append, List.cons_prefix_cons] at hx
    exact absurd hx.1 (by decide)
  rw [if_neg h1, if_neg h2, if_neg h3]
  split
  · rfl
  · next h =>
    exact absurd ( List.prefix_append platformPlaceholder t) h

theorem pyFormat_lit (v p : List Char) (ch : Char) (t : List Char)
    (h1 : ch ≠ '{') (h2 : ch ≠ '}') :
    pyFormat v p (ch :: t) = (fun out => ch :: out) <$> pyFormat v p t := by
  rw [pyFormat_cons]
  have k1 : ¬ ['{', '{'] <+: ch :: t := by
    intro hx
    rw [List.cons_prefix_cons] at hx
    exact h1 hx.1.symm
  have k2 : ¬ ['}', '}'] <+: ch :: t := by
    intro hx
    rw [List.cons_prefix_cons] at hx
    exact h2 hx.1.symm
  have k3 : ¬ versionPlaceholder <+: ch :: t := by
    intro hx
    rw [show versionPlaceholder = '{' :: ['v', 'e', 'r', 's', 'i', 'o', 'n', '}'] from rfl,
      List.cons_prefix_cons] at hx
    exact h1 hx.1.symm
  have k4 : ¬ platformPlaceholder <+: ch :: t := by
    intro hx
    rw [show platformPlaceholder = '{' :: ['p', 'l', 'a', 't', 'f', 'o', 'r', 'm', '}'] from
      rfl, List.cons_prefix_cons] at hx
    exact h1 hx.1.symm
  have k5 : ¬ (ch = '{' ∨ ch = '}') := by
    rintro (h | h)
    · exact h1 h
    · exact h2 h
  rw [if_neg k1, if_neg k2, if_neg k3, if_neg k4, if_neg k5]

theorem pyFormat_skip (v p a t : List Char) (h1 : '{' ∉ a) (h2 : '}' ∉ a) :
    pyFormat v p (a ++ t) = (fun out => a ++ out) <$> pyFormat v p t := by
  induction a with
  | nil =>
    show pyFormat v p t = _
    cases hres : pyFormat v p t <;> simp [hres]
  | cons ch a' ih =>
    rw [List.mem_cons] at h1 h2
    push_neg at h1 h2
    obtain ⟨hc1, h1'⟩ := h1
    obtain ⟨hc2, h2'⟩ := h2
    rw [List.cons_append, pyFormat_lit v p ch (a' ++ t) hc1.symm hc2.symm, ih h1' h2']
    cases pyFormat v p t <;> rfl

theorem pyFormat_closed (v p c : List Char) (h1 : '{' ∉ c) (h2 : '}' ∉ c) :
    pyFormat v p c = some c := by
  have h := pyFormat_skip v p c [] h1 h2
  rw [List.append_nil] at h
  rw [h, pyFormat_nil]
  simp

theorem pyFormat_version_platform (v p a b c : List Char)
    (ha1 : '{' ∉ a) (ha2 : '}' ∉ a) (hb1 : '{' ∉ b) (hb2 : '}' ∉ b)
    (hc1 : '{' ∉ c) (hc2 : '}' ∉ c) :
    pyFormat v p (a ++ (versionPlaceholder ++ (b ++ (platformPlaceholder ++ c))))
      = some (a ++ (v ++ (b ++ (p ++ c)))) := by
  rw [pyFormat_skip v p a _ ha1 ha2, pyFormat_version, pyFormat_skip v p b _ hb1 hb2,
    pyFormat_platform, pyFormat_closed v p c hc1 hc2]
  rfl

theorem pyFormat_platform_version (v p a b c : List Char)
    (ha1 : '{' ∉ a) (ha2 : '}' ∉ a) (hb1 : '{' ∉ b) (hb2 : '}' ∉ b)
    (hc1 : '{' ∉ c) (hc2 : '}' ∉ c) :
    pyFormat v p (a ++ (platformPlaceholder ++ (b ++ (versionPlaceholder ++ c))))
      = some (a ++ (p ++ (b ++ (v ++ c)))) := by
  rw [pyFormat_skip v p a _ ha1 ha2, pyFormat_platform, pyFormat_skip v p b _ hb1 hb2,
    pyFormat_version, pyFormat_closed v p c hc1 hc2]
  rfl

/-- Events the commit hook itself can emit. -/
def hookOnlyEvent : Event → Bool
  | Event.loadError => true
  | Event.commitMsg _ => true
  | Event.gitAdd _ => true
  | Event.gitCommitCmd _ _ => true
  | _ => false

/-- Events the cleanup stage can emit. -/
def isCleanEvent : Event → Bool
  | Event.cleanDeleted _ => true
  | Event.cleanFailed _ => true
  | _ => false

/-- Events a push command can emit. -/
def isPushEvent : Event → Bool
  | Event.pushCmd _ _ => true
  | _ => false

/-- Events one platform-target iteration can emit. -/
def targetEvent : Event → Bool
  | Event.buildingFor _ => true
  | Event.execCmd _ _ => true
  | Event.hookCall _ _ => true
  | Event.loadError => true
  | Event.commitMsg _ => true
  | Event.gitAdd _ => true
  | Event.gitCommitCmd _ _ => true
  | Event.pushCmd _ _ => true
  | _ => false

theorem git_commit_cwd (env : Env) (cwd : List String) (version platform : String) :
    (git_commit env cwd version platform).1 = cwd := by
  simp only [git_commit]
  rcases env.loadHook with _ | config
  · rfl
  · dsimp only
    split_ifs <;> rfl

theorem git_commit_events (env : Env) (cwd : List String) (version platform : String) :
    ∀ e ∈ (git_commit env cwd version platform).2, hookOnlyEvent e = true := by
  simp only [git_commit]
  rcases env.loadHook with _ | config
  · intro e he
    simp only [List.mem_singleton] at he
    subst he
    rfl
  · dsimp only
    split_ifs <;> intro e he <;> fin_cases he <;> rfl

theorem targetEvent_of_hookOnly {e : Event} (h : hookOnlyEvent e = true) :
    targetEvent e = true := by
  cases e <;> simp_all [hookOnlyEvent, targetEvent]

theorem targetEvent_of_push {e : Event} (h : isPushEvent e = true) :
    targetEvent e = true := by
  cases e <;> simp_all [isPushEvent, targetEvent]

theorem push_events (sh : String → Bool) (cmds : List String) :
    ∀ e ∈ execute_vcs_push_commands sh cmds, isPushEvent e = true := by
  intro e he
  simp only [execute_vcs_push_commands, List.mem_map] at he
  obtain ⟨c, -, rfl⟩ := he
  rfl

theorem clean_events (fs : Option (List FSEntry)) :
    ∀ e ∈ cleanOldBuilds fs, isCleanEvent e = true := by
  rcases fs with _ | entries
  · intro e he
    simp [cleanOldBuilds] at he
  · intro e he
    simp only [cleanOldBuilds, List.mem_map] at he
    obtain ⟨x, -, rfl⟩ := he
    cases x <;> simp only [cleanEntry] <;> split_ifs <;> rfl

theorem buildTarget_cwd (env : Env) (version : String) (push_commands : List String)
    (cwd : List String) (target : String × Option String) :
    (buildTarget env version push_commands cwd target).1 = cwd := by
  rcases target with ⟨pname, _ | command⟩
  · rfl
  · simp only [buildTarget]
    split
    · exact git_commit_cwd env cwd version pname
    · rfl

theorem buildTarget_events (env : Env) (version : String) (push_commands : List String)
    (cwd : List String) (target : String × Option String) :
    ∀ e ∈ (buildTarget env version push_commands cwd target).2, targetEvent e = true := by
  rcases target with ⟨pname, _ | command⟩
  · intro e he
    simp [buildTarget] at he
  · simp only [buildTarget]
    split
    · refine List.forall_mem_append.mpr ⟨List.forall_mem_append.mpr ⟨?_, ?_⟩, ?_⟩
      · intro e he
        fin_cases he <;> rfl
      · refine List.forall_mem_cons.mpr ⟨rfl, ?_⟩
        intro e he
        exact targetEvent_of_hookOnly (git_commit_events env cwd version pname e he)
      · intro e he
        exact targetEvent_of_push (push_events env.shell_ok push_commands e he)
    · intro e he
      fin_cases he <;> rfl

theorem foldl_buildTarget (env : Env) (version : String) (push_commands : List String)
    (l : List (String × Option String)) :
    ∀ (cwd : List String) (evs0 : List Event),
      l.foldl
        (fun acc pc =>
          let r := buildTarget env version push_commands acc.1 pc
          (r.1, acc.2 ++ r.2))
        (cwd, evs0)
      = (cwd,
         evs0 ++
           (l.map (fun pc => (buildTarget env version push_commands cwd pc).2)).flatten) := by
  induction l with
  | nil =>
    intro cwd evs0
    simp
  | cons pc rest ih =>
    intro cwd evs0
    rw [List.foldl_cons]
    dsimp only
    rw [buildTarget_cwd, ih]
    simp [List.append_assoc]

theorem buildPhase_multi (env : Env) (config : BirbConfig) (cwd : List String)
    (h : (config.build.platform_build_commands.any fun pc => pc.2.isSome) = true) :
    buildPhase env config cwd
      = (cwd,
         Event.multiPlatformMode ::
           (config.build.platform_build_commands.map
             (fun pc =>
               (buildTarget env config.versioning.current_version
                 config.git_integration.vcs_push_command cwd pc).2)).flatten) := by
  simp only [buildPhase, h, if_true]
  rw [foldl_buildTarget]
  rfl

theorem isExec_false_of_hookOnly {e : Event} (h : hookOnlyEvent e = true) :
    isExecEvent e = false := by
  cases e <;> simp_all [hookOnlyEvent, isExecEvent]

theorem isExec_false_of_push {e : Event} (h : isPushEvent e = true) :
    isExecEvent e = false := by
  cases e <;> simp_all [isPushEvent, isExecEvent]

theorem isExec_false_of_clean {e : Event} (h : isCleanEvent e = true) :
    isExecEvent e = false := by
  cases e <;> simp_all [isCleanEvent, isExecEvent]

theorem build_project_some (env : Env) (fs : Option (List FSEntry)) (cwd : List String)
    (config : BirbConfig) (h : env.load0 = some config) :
    build_project env fs cwd
      = ((buildPhase env config cwd).1,
         (if config.build.clean_before_build then cleanOldBuilds fs else [])
           ++ (buildPhase env config cwd).2) := by
  unfold build_project
  rw [h]

theorem buildPhase_custom_ok (env : Env) (config : BirbConfig) (cwd : List String)
    (h : (config.build.platform_build_commands.any fun pc => pc.2.isSome) = false)
    (hs : env.shell_ok config.build.custom_build_command = true) :
    buildPhase env config cwd
      = ((git_commit env cwd config.versioning.current_version "custom").1,
         (Event.customMode :: [Event.execCmd config.build.custom_build_command true])
           ++ (Event.hookCall config.versioning.current_version "custom"
               :: (git_commit env cwd config.versioning.current_version "custom").2)
           ++ execute_vcs_push_commands env.shell_ok
                config.git_integration.vcs_push_command) := by
  unfold buildPhase
  rw [if_neg (by rw [h]; exact Bool.false_ne_true)]
  simp only [execute_build_command]
  rw [if_pos hs, hs]

theorem buildPhase_custom_fail (env : Env) (config : BirbConfig) (cwd : List String)
    (h : (config.build.platform_build_commands.any fun pc => pc.2.isSome) = false)
    (hs : env.shell_ok config.build.custom_build_command = false) :
    buildPhase env config cwd
      = (cwd,
         [Event.customMode, Event.execCmd config.build.custom_build_command false]) := by
  unfold buildPhase
  rw [if_neg (by rw [h]; exact Bool.false_ne_true)]
  simp only [execute_build_command]
  rw [if_neg (by rw [hs]; exact Bool.false_ne_true), hs]

theorem buildTarget_none (env : Env) (version : String) (push_commands : List String)
    (cwd : List String) (platform : String) :
    (buildTarget env version push_commands cwd (platform, none)).2 = [] := rfl

theorem buildTarget_some_ok (env : Env) (version : String) (push_commands : List String)
    (cwd : List String) (platform command : String)
    (hs : env.shell_ok command = true) :
    (buildTarget env version push_commands cwd (platform, some command)).2
      = (Event.buildingFor platform :: [Event.execCmd command true])
        ++ (Event.hookCall version platform :: (git_commit env cwd version platform).2)
        ++ execute_vcs_push_commands env.shell_ok push_commands := by
  unfold buildTarget
  simp only [execute_build_command]
  rw [if_pos hs, hs]

theorem buildTarget_some_fail (env : Env) (version : String) (push_commands : List String)
    (cwd : List String) (platform command : String)
    (hs : env.shell_ok command = false) :
    (buildTarget env version push_commands cwd (platform, some command)).2
      = [Event.buildingFor platform, Event.execCmd command false] := by
  unfold buildTarget
  simp only [execute_build_command]
  rw [if_neg (by rw [hs]; exact Bool.false_ne_true), hs]

theorem not_mem_ite_clean {e : Event} (he : isCleanEvent e = false) (b : Bool)
    (fs : Option (List FSEntry)) :
    e ∉ (if b = true then cleanOldBuilds fs else []) := by
  split
  · intro hm
    have := clean_events fs e hm
    rw [this] at he
    exact Bool.noConfusion he
  · simp

theorem targets_flatten_events (env : Env) (version : String) (push_commands : List String)
    (cwd : List String) (l : List (String × Option String)) :
    ∀ e ∈ (l.map fun pc => (buildTarget env version push_commands cwd pc).2).flatten,
      targetEvent e = true := by
  intro e he
  rw [List.mem_flatten] at he
  obtain ⟨tr, htr, hmem⟩ := he
  rw [List.mem_map] at htr
  obtain ⟨pc, -, rfl⟩ := htr
  exact buildTarget_events env version push_commands cwd pc e hmem

theorem buildPhase_cwd (env : Env) (config : BirbConfig) (cwd : List String) :
    (buildPhase env config cwd).1 = cwd := by
  by_cases hm : (config.build.platform_build_commands.any fun pc => pc.2.isSome) = true
  · rw [buildPhase_multi env config cwd hm]
  · rw [Bool.not_eq_true] at hm
    by_cases hs : env.shell_ok config.build.custom_build_command = true
    · rw [buildPhase_custom_ok env config cwd hm hs]
      exact git_commit_cwd env cwd config.versioning.current_version "custom"
    · rw [Bool.not_eq_true] at hs
      rw [buildPhase_custom_fail env config cwd hm hs]

theorem build_project_cwd (env : Env) (fs : Option (List FSEntry)) (cwd : List String) :
    (build_project env fs cwd).1 = cwd := by
  rcases h : env.load0 with _ | config
  · simp [build_project, h]
  · rw [build_project_some env fs cwd config h]
    exact buildPhase_cwd env config cwd

theorem buildPhase_events (env : Env) (config : BirbConfig) (cwd : List String) :
    ∀ e ∈ (buildPhase env config cwd).2,
      targetEvent e = true ∨ e = Event.multiPlatformMode ∨ e = Event.customMode := by
  by_cases hm : (config.build.platform_build_commands.any fun pc => pc.2.isSome) = true
  · rw [buildPhase_multi env config cwd hm]
    intro e he
    rcases List.mem_cons.mp he with rfl | hf
    · exact Or.inr (Or.inl rfl)
    · exact Or.inl (targets_flatten_events env _ _ cwd _ e hf)
  · rw [Bool.not_eq_true] at hm
    by_cases hs : env.shell_ok config.build.custom_build_command = true
    · rw [buildPhase_custom_ok env config cwd hm hs]
      refine List.forall_mem_append.mpr ⟨List.forall_mem_append.mpr ⟨?_, ?_⟩, ?_⟩
      · intro e he
        fin_cases he
        · exact Or.inr (Or.inr rfl)
        · exact Or.inl rfl
      · refine List.forall_mem_cons.mpr ⟨Or.inl rfl, ?_⟩
        intro e he
        exact Or.inl (targetEvent_of_hookOnly
          (git_commit_events env cwd config.versioning.current_version "custom" e he))
      · intro e he
        exact Or.inl (targetEvent_of_push (push_events env.shell_ok _ e he))
    · rw [Bool.not_eq_true] at hs
      rw [buildPhase_custom_fail env config cwd hm hs]
      intro e he
      fin_cases he
      · exact Or.inr (Or.inr rfl)
      · exact Or.inl rfl

theorem multi_mode_mem (env : Env) (fs : Option (List FSEntry)) (cwd : List String)
    (config : BirbConfig) (h : env.load0 = some config)
    (hm : (config.build.platform_build_commands.any fun pc => pc.2.isSome) = true) :
    Event.multiPlatformMode ∈ (build_project env fs cwd).2 := by
  rw [build_project_some env fs cwd config h, buildPhase_multi env config cwd hm]
  exact List.mem_append.mpr (Or.inr (List.mem_cons_self _ _))

theorem custom_mode_not_mem (env : Env) (fs : Option (List FSEntry)) (cwd : List String)
    (config : BirbConfig) (h : env.load0 = some config)
    (hm : (config.build.platform_build_commands.any fun pc => pc.2.isSome) = true) :
    Event.customMode ∉ (build_project env fs cwd).2 := by
  rw [build_project_some env fs cwd config h, buildPhase_multi env config cwd hm]
  intro hc
  rcases List.mem_append.mp hc with hc | hc
  · exact not_mem_ite_clean (e := Event.customMode) rfl _ fs hc
  · rcases List.mem_cons.mp hc with hc | hc
    · exact Event.noConfusion hc
    · have := targets_flatten_events env _ _ cwd _ _ hc
      exact Bool.false_ne_true this

/-- A concrete `git_integration` section for witnesses. -/
def sampleGit (ac : Bool) (pushes : List String) : GitIntegration :=
  { repo_name := "r"
    branch := "main"
    auto_commit := ac
    commit_message_template := "Release {version} for {platform}"
    vcs_push_command := pushes }

/-- A concrete manifest for witnesses. -/
def sampleConfig (pcs : List (String × Option String)) (custom : String)
    (clean : Bool) (ac : Bool) (pushes : List String) : BirbConfig :=
  { project_name := "proj"
    versioning := { auto_increment := true, increment_type := "patch"
                    current_version := "1.0.0" }
    build := { custom_build_command := custom, platform_build_commands := pcs
               output_directory := "./builds", clean_before_build := clean }
    git_integration := sampleGit ac pushes }

/-- C3: on both the commit-success and the commit-failure path (and on
the guard paths) the working directory after `git_commit` returns equals
the working directory before the call — the `finally: os.chdir("..")`
undoes the `os.chdir(BIRB_DIR)` on every modelled exit path — and the
same holds for a whole `build_project` run. -/
theorem post_build_hook_preserves_cwd (env : Env) (cwd : List String)
    (version platform : String) (fs : Option (List FSEntry)) :
    (git_commit env cwd version platform).1 = cwd ∧
    (build_project env fs cwd).1 = cwd :=
  ⟨git_commit_cwd env cwd version platform, build_project_cwd env fs cwd⟩

/-- The run's trace is the cleanup events followed by the build-phase
events. -/
theorem build_project_trace (env : Env) (fs : Option (List FSEntry)) (cwd : List String)
    (config : BirbConfig) (h : env.load0 = some config) :
    (build_project env fs cwd).2
      = (if config.build.clean_before_build then cleanOldBuilds fs else [])
        ++ (buildPhase env config cwd).2 := by
  rw [build_project_some env fs cwd config h]

theorem buildPhase_multi_trace (env : Env) (config : BirbConfig) (cwd : List String)
    (hm : (config.build.platform_build_commands.any fun pc => pc.2.isSome) = true) :
    (buildPhase env config cwd).2
      = Event.multiPlatformMode ::
          (config.build.platform_build_commands.map
            (fun pc => (buildTarget env config.versioning.current_version
              config.git_integration.vcs_push_command cwd pc).2)).flatten := by
  rw [buildPhase_multi env config cwd hm]

theorem buildPhase_custom_ok_trace (env : Env) (config : BirbConfig) (cwd : List String)
    (hm : (config.build.platform_build_commands.any fun pc => pc.2.isSome) = false)
    (hs : env.shell_ok config.build.custom_build_command = true) :
    (buildPhase env config cwd).2
      = (Event.customMode :: [Event.execCmd config.build.custom_build_command true])
        ++ (Event.hookCall config.versioning.current_version "custom"
            :: (git_commit env cwd config.versioning.current_version "custom").2)
        ++ execute_vcs_push_commands env.shell_ok
             config.git_integration.vcs_push_command := by
  rw [buildPhase_custom_ok env config cwd hm hs]

theorem buildPhase_custom_fail_trace (env : Env) (config : BirbConfig) (cwd : List String)
    (hm : (config.build.platform_build_commands.any fun pc => pc.2.isSome) = false)
    (hs : env.shell_ok config.build.custom_build_command = false) :
    (buildPhase env config cwd).2
      = [Event.customMode, Event.execCmd config.build.custom_build_command false] := by
  rw [buildPhase_custom_fail env config cwd hm hs]

/-- C2: `build_project` selects multi-platform mode exactly when some
entry of `platform_build_commands` is non-null; otherwise it runs
`custom_build_command` exactly once (the only `execCmd` event of the
run) and, when that build succeeds, invokes the post-build hook with the
platform label `"custom"`. -/
theorem mode_selection_spec (env : Env) (fs : Option (List FSEntry))
    (config : BirbConfig) (cwd : List String) (h : env.load0 = some config) :
    ((config.build.platform_build_commands.any fun pc => pc.2.isSome) = true →
      Event.multiPlatformMode ∈ (build_project env fs cwd).2 ∧
      Event.customMode ∉ (build_project env fs cwd).2) ∧
    ((config.build.platform_build_commands.any fun pc => pc.2.isSome) = false →
      Event.customMode ∈ (build_project env fs cwd).2 ∧
      Event.multiPlatformMode ∉ (build_project env fs cwd).2 ∧
      ((build_project env fs cwd).2).filter isExecEvent
        = [Event.execCmd config.build.custom_build_command
            (env.shell_ok config.build.custom_build_command)] ∧
      (env.shell_ok config.build.custom_build_command = true →
        Event.hookCall config.versioning.current_version "custom"
          ∈ (build_project env fs cwd).2)) := by
  constructor
  · intro hm
    exact ⟨multi_mode_mem env fs cwd config h hm,
      custom_mode_not_mem env fs cwd config h hm⟩
  · intro hm
    rw [build_project_trace env fs cwd config h]
    have hfc : ((if config.build.clean_before_build = true
        then cleanOldBuilds fs else []).filter isExecEvent) = [] := by
      apply List.filter_eq_nil_iff.mpr
      intro e he
      split at he
      · rw [isExec_false_of_clean (clean_events fs e he)]
        exact Bool.noConfusion
      · simp at he
    have hfg : ∀ cwd1, (((git_commit env cwd1 config.versioning.current_version
        "custom").2).filter isExecEvent) = [] := by
      intro cwd1
      apply List.filter_eq_nil_iff.mpr
      intro e he
      rw [isExec_false_of_hookOnly
        (git_commit_events env cwd1 config.versioning.current_version "custom" e he)]
      exact Bool.noConfusion
    have hfp : ((execute_vcs_push_commands env.shell_ok
        config.git_integration.vcs_push_command).filter isExecEvent) = [] := by
      apply List.filter_eq_nil_iff.mpr
      intro e he
      rw [isExec_false_of_push (push_events env.shell_ok _ e he)]
      exact Bool.noConfusion
    by_cases hs : env.shell_ok config.build.custom_build_command = true
    · rw [buildPhase_custom_ok_trace env config cwd hm hs, hs]
      refine ⟨?_, ?_, ?_, ?_⟩
      · apply List.mem_append.mpr
        apply Or.inr
        apply List.mem_append.mpr
        apply Or.inl
        apply List.mem_append.mpr
        exact Or.inl (List.mem_cons_self _ _)
      · intro hmm
        rcases List.mem_append.mp hmm with hmm | hmm
        · exact not_mem_ite_clean (e := Event.multiPlatformMode) rfl _ fs hmm
        · rcases List.mem_append.mp hmm with hmm | hmm
          · rcases List.mem_append.mp hmm with hmm | hmm
            · simp at hmm
            · rcases List.mem_cons.mp hmm with hmm | hmm
              · exact Event.noConfusion hmm
              · have := git_commit_events env cwd
                  config.versioning.current_version "custom" _ hmm
                exact Bool.noConfusion this
          · have := push_events env.shell_ok
              config.git_integration.vcs_push_command _ hmm
            exact Bool.noConfusion this
      · rw [List.filter_append, List.filter_append, List.filter_append, hfc, hfp,
          List.filter_cons, List.filter_cons]
        simp only [isExecEvent, cond_false, cond_true]
        rw [List.filter_cons]
        simp only [isExecEvent, cond_false]
        rw [hfg]
        simp [List.filter_nil]
      · intro _
        apply List.mem_append.mpr
        apply Or.inr
        apply List.mem_append.mpr
        apply Or.inl
        apply List.mem_append.mpr
        exact Or.inr (List.mem_cons_self _ _)
    · rw [Bool.not_eq_true] at hs
      rw [buildPhase_custom_fail_trace env config cwd hm hs, hs]
      refine ⟨?_, ?_, ?_, ?_⟩
      · exact List.mem_append.mpr (Or.inr (List.mem_cons_self _ _))
      · intro hmm
        rcases List.mem_append.mp hmm with hmm | hmm
        · exact not_mem_ite_clean (e := Event.multiPlatformMode) rfl _ fs hmm
        · simp at hmm
      · rw [List.filter_append, hfc]
        simp [isExecEvent]
      · intro hcon
        exact Bool.noConfusion hcon

/-- Environment for the C2 witness: all platform commands null, every
shell command succeeds. -/
def wEnvC2 : Env :=
  { load0 := some (sampleConfig [("windows", none), ("linux", none), ("macos", none)]
      "echo build" false true [])
    loadHook := some (sampleConfig [("windows", none), ("linux", none), ("macos", none)]
      "echo build" false true [])
    shell_ok := fun _ => true
    git_add_ok := true
    git_commit_ok := true }

theorem mode_selection_spec_witness :
    Event.customMode ∈ (build_project wEnvC2 none []).2 ∧
    Event.hookCall "1.0.0" "custom" ∈ (build_project wEnvC2 none []).2 := by
  have h := (mode_selection_spec wEnvC2 none
    (sampleConfig [("windows", none), ("linux", none), ("macos", none)]
      "echo build" false true []) [] rfl).2 rfl
  exact ⟨h.1, h.2.2.2 rfl⟩

/-- C4: in multi-platform mode the run's trace is the cleanup events
followed by the mode banner followed by the concatenation, in the
mapping's insertion order, of each target's own trace; a null command
contributes nothing, a failing command contributes only its failure
report (no hook call), and a succeeding command contributes the hook
call followed by the push events — so one target's failure never stops
the remaining targets from appearing in the trace. -/
theorem multi_platform_iteration_order (env : Env) (fs : Option (List FSEntry))
    (config : BirbConfig) (cwd : List String) (h : env.load0 = some config)
    (hm : (config.build.platform_build_commands.any fun pc => pc.2.isSome) = true) :
    (build_project env fs cwd).2
      = (if config.build.clean_before_build then cleanOldBuilds fs else [])
        ++ Event.multiPlatformMode ::
          (config.build.platform_build_commands.map
            (fun pc => (buildTarget env config.versioning.current_version
              config.git_integration.vcs_push_command cwd pc).2)).flatten
    ∧ (∀ platform, (buildTarget env config.versioning.current_version
        config.git_integration.vcs_push_command cwd (platform, none)).2 = [])
    ∧ (∀ platform command, env.shell_ok command = false →
        (buildTarget env config.versioning.current_version
          config.git_integration.vcs_push_command cwd (platform, some command)).2
          = [Event.buildingFor platform, Event.execCmd command false])
    ∧ (∀ platform command, env.shell_ok command = true →
        (buildTarget env config.versioning.current_version
          config.git_integration.vcs_push_command cwd (platform, some command)).2
          = (Event.buildingFor platform :: [Event.execCmd command true])
            ++ (Event.hookCall config.versioning.current_version platform
                :: (git_commit env cwd config.versioning.current_version platform).2)
            ++ execute_vcs_push_commands env.shell_ok
                 config.git_integration.vcs_push_command) := by
  refine ⟨?_, ?_, ?_, ?_⟩
  · rw [build_project_some env fs cwd config h, buildPhase_multi env config cwd hm]
  · intro platform
    exact buildTarget_none env _ _ cwd platform
  · intro platform command hs
    exact buildTarget_some_fail env _ _ cwd platform command hs
  · intro platform command hs
    exact buildTarget_some_ok env _ _ cwd platform command hs

/-- Environment for the C4 witness: windows succeeds, macos fails,
linux is null. -/
def wEnvC4 : Env :=
  { load0 := some (sampleConfig
      [("windows", some "bw"), ("linux", none), ("macos", some "bm")]
      "make build" false false ["p1"])
    loadHook := some (sampleConfig
      [("windows", some "bw"), ("linux", none), ("macos", some "bm")]
      "make build" false false ["p1"])
    shell_ok := fun s => s == "bw" || s == "p1"
    git_add_ok := true
    git_commit_ok := true }

theorem multi_platform_iteration_order_witness :
    (build_project wEnvC4 none []).2
      = (if (sampleConfig [("windows", some "bw"), ("linux", none), ("macos", some "bm")]
            "make build" false false ["p1"]).build.clean_before_build
          then cleanOldBuilds none else [])
        ++ Event.multiPlatformMode ::
          (((sampleConfig [("windows", some "bw"), ("linux", none), ("macos", some "bm")]
            "make build" false false ["p1"]).build.platform_build_commands).map
            (fun pc => (buildTarget wEnvC4 "1.0.0" ["p1"] [] pc).2)).flatten :=
  (multi_platform_iteration_order wEnvC4 none
    (sampleConfig [("windows", some "bw"), ("linux", none), ("macos", some "bm")]
      "make build" false false ["p1"]) [] rfl rfl).1

/-- Environment for the C1 counterexample: a single platform target
whose build succeeds, `auto_commit = false` (so the commit step is
skipped), one push command. -/
def cexEnvC1 : Env :=
  { load0 := some (sampleConfig [("windows", some "make w")] "make build"
      false false ["push one"])
    loadHook := some (sampleConfig [("windows", some "make w")] "make build"
      false false ["push one"])
    shell_ok := fun _ => true
    git_add_ok := true
    git_commit_ok := true }

/-- C1 counterexample: with `auto_commit = false` the hook performs no
commit at all (the trace holds no commit event), yet the push command
still runs — `build_project` calls `execute_vcs_push_commands`
unconditionally after a successful build (lines 180-182), so pushing is
not skipped when the commit step is skipped or fails. -/
theorem push_not_gated_on_commit_cex :
    (build_project cexEnvC1 none []).2
      = [Event.multiPlatformMode, Event.buildingFor "windows",
         Event.execCmd "make w" true, Event.hookCall "1.0.0" "windows",
         Event.pushCmd "push one" true]
    ∧ Event.pushCmd "push one" true ∈ (build_project cexEnvC1 none []).2 := by
  constructor
  · rfl
  · decide

/-- C1 amended: after a successful build command the push commands are
always executed, regardless of whether the commit step succeeded, failed,
was skipped because `auto_commit` is false, or the manifest failed to
load at hook time (whatever `git_commit` contributed, the push events
follow it); push commands are skipped only when the build command itself
failed. -/
theorem pushes_run_after_build_regardless_of_commit (env : Env) (version : String)
    (push_commands cwd : List String) (platform command : String) :
    (env.shell_ok command = true →
      (buildTarget env version push_commands cwd (platform, some command)).2
        = (Event.buildingFor platform :: [Event.execCmd command true])
          ++ (Event.hookCall version platform
              :: (git_commit env cwd version platform).2)
          ++ execute_vcs_push_commands env.shell_ok push_commands) ∧
    (env.shell_ok command = false →
      ∀ c b, Event.pushCmd c b
        ∉ (buildTarget env version push_commands cwd (platform, some command)).2) := by
  constructor
  · intro hs
    exact buildTarget_some_ok env version push_commands cwd platform command hs
  · intro hs c b hmm
    rw [buildTarget_some_fail env version push_commands cwd platform command hs] at hmm
    simp at hmm

/-- Environment for the C1 witness: the build succeeds but the
`git commit` subprocess fails. -/
def wEnvC1 : Env :=
  { load0 := some (sampleConfig [("linux", some "bld")] "make build"
      false true ["p1"])
    loadHook := some (sampleConfig [("linux", some "bld")] "make build"
      false true ["p1"])
    shell_ok := fun _ => true
    git_add_ok := true
    git_commit_ok := false }

theorem pushes_run_after_build_regardless_of_commit_witness :
    (buildTarget wEnvC1 "2.0" ["p1"] [] ("linux", some "bld")).2
      = (Event.buildingFor "linux" :: [Event.execCmd "bld" true])
        ++ (Event.hookCall "2.0" "linux"
            :: (git_commit wEnvC1 [] "2.0" "linux").2)
        ++ execute_vcs_push_commands wEnvC1.shell_ok ["p1"] :=
  (pushes_run_after_build_regardless_of_commit wEnvC1 "2.0" ["p1"] [] "linux" "bld").1 rfl

/-- C5 counterexample: the template `}{version} {platform}` contains
each of the `{version}` and `{platform}` placeholders exactly once
(both are infixes of it, and the decomposition is visible in the term),
yet `str.format` on it raises `ValueError: Single '}' encountered in
format string` at line 122 before any commit message exists — refuting
the claim, which asserts a produced, substituted message for every
template containing the two placeholders once each. -/
theorem format_raises_on_stray_brace_cex :
    pyFormat "1.0.0".toList "windows".toList
        ('}' :: (versionPlaceholder ++ (' ' :: platformPlaceholder))) = none
    ∧ versionPlaceholder <:+: ('}' :: (versionPlaceholder ++ (' ' :: platformPlaceholder)))
    ∧ platformPlaceholder <:+: ('}' :: (versionPlaceholder ++ (' ' :: platformPlaceholder))) := by
  refine ⟨?_, by decide, by decide⟩
  rw [pyFormat_cons]
  decide

/-- C5 amended: for every template consisting of the `{version}` and
`{platform}` placeholders exactly once each (in either order) surrounded
by brace-free literal text, `str.format` does not raise — the fallible
model `pyFormat` succeeds — and the produced commit message has each
placeholder substituted exactly once with the given version and platform
values; the hook's message (`formatCommitMessage`) agrees with it, and
when the substituted values are brace-free the result holds no residual
placeholder text.  Templates with any other brace make `format` raise
instead (see the counterexample). -/
theorem commit_message_single_substitution (a b c v p : List Char)
    (ha1 : '{' ∉ a) (ha2 : '}' ∉ a) (hb1 : '{' ∉ b) (hb2 : '}' ∉ b)
    (hc1 : '{' ∉ c) (hc2 : '}' ∉ c) (hv : '{' ∉ v) (hp : '{' ∉ p) :
    (pyFormat v p (a ++ versionPlaceholder ++ b ++ platformPlaceholder ++ c)
        = some (a ++ v ++ b ++ p ++ c)
      ∧ formatCommitMessage
          (String.mk (a ++ versionPlaceholder ++ b ++ platformPlaceholder ++ c))
          (String.mk v) (String.mk p)
        = String.mk (a ++ v ++ b ++ p ++ c)
      ∧ ¬ versionPlaceholder <:+: (a ++ v ++ b ++ p ++ c)
      ∧ ¬ platformPlaceholder <:+: (a ++ v ++ b ++ p ++ c))
    ∧ (pyFormat v p (a ++ platformPlaceholder ++ b ++ versionPlaceholder ++ c)
        = some (a ++ p ++ b ++ v ++ c)
      ∧ formatCommitMessage
          (String.mk (a ++ platformPlaceholder ++ b ++ versionPlaceholder ++ c))
          (String.mk v) (String.mk p)
        = String.mk (a ++ p ++ b ++ v ++ c)
      ∧ ¬ versionPlaceholder <:+: (a ++ p ++ b ++ v ++ c)
      ∧ ¬ platformPlaceholder <:+: (a ++ p ++ b ++ v ++ c)) := by
  have hnb1 : '{' ∉ a ++ v ++ b ++ p ++ c := by
    intro hmm
    simp only [List.mem_append] at hmm
    rcases hmm with (((h1 | h1) | h1) | h1) | h1
    · exact ha1 h1
    · exact hv h1
    · exact hb1 h1
    · exact hp h1
    · exact hc1 h1
  have hnb2 : '{' ∉ a ++ p ++ b ++ v ++ c := by
    intro hmm
    simp only [List.mem_append] at hmm
    rcases hmm with (((h1 | h1) | h1) | h1) | h1
    · exact ha1 h1
    · exact hp h1
    · exact hb1 h1
    · exact hv h1
    · exact hc1 h1
  refine ⟨⟨?_, ?_, ?_, ?_⟩, ⟨?_, ?_, ?_, ?_⟩⟩
  · simp only [List.append_assoc]
    exact pyFormat_version_platform v p a b c ha1 ha2 hb1 hb2 hc1 hc2
  · show String.mk (substAux v p (a ++ versionPlaceholder ++ b ++ platformPlaceholder ++ c))
      = String.mk (a ++ v ++ b ++ p ++ c)
    simp only [List.append_assoc]
    exact congrArg String.mk (substAux_version_platform v p a b c ha1 hb1 hc1)
  · exact brace_not_mem_of_infix (by decide) hnb1
  · exact brace_not_mem_of_infix (by decide) hnb1
  · simp only [List.append_assoc]
    exact pyFormat_platform_version v p a b c ha1 ha2 hb1 hb2 hc1 hc2
  · show String.mk (substAux v p (a ++ platformPlaceholder ++ b ++ versionPlaceholder ++ c))
      = String.mk (a ++ p ++ b ++ v ++ c)
    simp only [List.append_assoc]
    exact congrArg String.mk (substAux_platform_version v p a b c ha1 hb1 hc1)
  · exact brace_not_mem_of_infix (by decide) hnb2
  · exact brace_not_mem_of_infix (by decide) hnb2

theorem commit_message_single_substitution_witness :
    pyFormat "1.0.0".toList "windows".toList
        ("Release ".toList ++ versionPlaceholder ++ " for ".toList
          ++ platformPlaceholder ++ ([] : List Char))
      = some ("Release ".toList ++ "1.0.0".toList ++ " for ".toList
          ++ "windows".toList ++ ([] : List Char))
    ∧ formatCommitMessage
        (String.mk ("Release ".toList ++ versionPlaceholder ++ " for ".toList
          ++ platformPlaceholder ++ ([] : List Char)))
        (String.mk "1.0.0".toList) (String.mk "windows".toList)
      = String.mk ("Release ".toList ++ "1.0.0".toList ++ " for ".toList
          ++ "windows".toList ++ ([] : List Char)) := by
  have h := (commit_message_single_substitution "Release ".toList " for ".toList []
    "1.0.0".toList "windows".toList (by decide) (by decide) (by decide) (by decide)
    (by decide) (by decide) (by decide) (by decide)).1
  exact ⟨h.1, h.2.1⟩

/-- C6: the cleanup stage is a no-op when the output directory is
absent; otherwise it visits every direct child in order, removing
regular files and symlinks when the unlink succeeds, removing a
directory only when it is empty (and removable), and reporting — not
propagating — every per-entry failure; and whatever the cleanup stage
produced, the rest of the run is exactly the build phase, so cleanup
failures never abort the parent build. -/
theorem cleanup_stage_behavior :
    (∀ (env : Env) (config : BirbConfig) (fs : Option (List FSEntry))
        (cwd : List String), env.load0 = some config →
      build_project env fs cwd
        = ((buildPhase env config cwd).1,
           (if config.build.clean_before_build then cleanOldBuilds fs else [])
             ++ (buildPhase env config cwd).2))
    ∧ cleanOldBuilds none = []
    ∧ (∀ entries, cleanOldBuilds (some entries) = entries.map cleanEntry)
    ∧ (∀ n, cleanEntry (FSEntry.file n true) = Event.cleanDeleted n)
    ∧ (∀ n, cleanEntry (FSEntry.symlink n true) = Event.cleanDeleted n)
    ∧ (∀ n, cleanEntry (FSEntry.file n false) = Event.cleanFailed n)
    ∧ (∀ n, cleanEntry (FSEntry.symlink n false) = Event.cleanFailed n)
    ∧ (∀ n d, cleanEntry (FSEntry.dir n false d) = Event.cleanFailed n)
    ∧ (∀ n, cleanEntry (FSEntry.dir n true true) = Event.cleanDeleted n)
    ∧ (∀ n, cleanEntry (FSEntry.dir n true false) = Event.cleanFailed n) := by
  refine ⟨?_, rfl, fun entries => rfl, fun n => rfl, fun n => rfl, fun n => rfl,
    fun n => rfl, fun n d => rfl, fun n => rfl, fun n => rfl⟩
  intro env config fs cwd h
  exact build_project_some env fs cwd config h

/-- Manifest for the C6 witness: `clean_before_build` is on. -/
def wCfgC6 : BirbConfig :=
  sampleConfig [("windows", some "bw")] "make build" true false []

/-- Environment for the C6 witness. -/
def wEnvC6 : Env :=
  { load0 := some wCfgC6
    loadHook := some wCfgC6
    shell_ok := fun _ => true
    git_add_ok := true
    git_commit_ok := true }

/-- Output-directory listing for the C6 witness: one removable file and
one non-empty subdirectory. -/
def wFsC6 : Option (List FSEntry) :=
  some [FSEntry.file "a.out" true, FSEntry.dir "keep" false true]

theorem cleanup_stage_behavior_witness :
    build_project wEnvC6 wFsC6 []
      = ((buildPhase wEnvC6 wCfgC6 []).1,
         (if wCfgC6.build.clean_before_build then cleanOldBuilds wFsC6 else [])
           ++ (buildPhase wEnvC6 wCfgC6 []).2) :=
  cleanup_stage_behavior.1 wEnvC6 wCfgC6 wFsC6 [] rfl

/-- C7: every push command is attempted in listing order (the i-th push
event reports the i-th command), a failing push does not prevent the
following pushes from running, and after a successful build the whole
push sequence is a suffix of that target's trace — the run continues
past it and is never aborted by a failed push. -/
theorem push_commands_all_attempted (sh : String → Bool) :
    (∀ (cmds : List String) (i : Nat) (c : String), cmds[i]? = some c →
      (execute_vcs_push_commands sh cmds)[i]? = some (Event.pushCmd c (sh c)))
    ∧ (∀ c1 c2, sh c1 = false → sh c2 = true →
        execute_vcs_push_commands sh [c1, c2]
          = [Event.pushCmd c1 false, Event.pushCmd c2 true])
    ∧ (∀ (env : Env) (version : String) (push_commands cwd : List String)
        (platform command : String),
        env.shell_ok command = true →
        execute_vcs_push_commands env.shell_ok push_commands
          <:+ (buildTarget env version push_commands cwd (platform, some command)).2) := by
  refine ⟨?_, ?_, ?_⟩
  · intro cmds i c hi
    simp [execute_vcs_push_commands, List.getElem?_map, hi]
  · intro c1 c2 h1 h2
    simp [execute_vcs_push_commands, h1, h2]
  · intro env version push_commands cwd platform command hs
    rw [buildTarget_some_ok env version push_commands cwd platform command hs]
    exact List.suffix_append _ _

/-- Shell oracle for the C7 witness: `p1` fails, `p2` succeeds. -/
def wShC7 : String → Bool := fun s => s == "p2"

theorem push_commands_all_attempted_witness :
    execute_vcs_push_commands wShC7 ["p1", "p2"]
      = [Event.pushCmd "p1" false, Event.pushCmd "p2" true] :=
  (push_commands_all_attempted wShC7).2.1 "p1" "p2" rfl rfl

/-- Manifest for the C8 counterexample: `clean_before_build` is on and
`output_directory` is the manifest directory `.birb` itself. -/
def cexCfgC8 : BirbConfig :=
  { project_name := "proj"
    versioning := { auto_increment := true, increment_type := "patch"
                    current_version := "1.0.0" }
    build := { custom_build_command := "make build"
               platform_build_commands := [("windows", some "b")]
               output_directory := ".birb"
               clean_before_build := true }
    git_integration := sampleGit false [] }

/-- Environment for the C8 counterexample. -/
def cexEnvC8 : Env :=
  { load0 := some cexCfgC8
    loadHook := some cexCfgC8
    shell_ok := fun _ => true
    git_add_ok := true
    git_commit_ok := true }

/-- Listing of `.birb` for the C8 counterexample: it holds the manifest
file itself. -/
def cexFsC8 : Option (List FSEntry) := some [FSEntry.file "birb.json" true]

/-- C8 counterexample: with `clean_before_build = true` and
`output_directory = ".birb"` the cleanup loop lists `.birb`, finds the
regular file `birb.json`, and `os.unlink`s it (lines 159-164) — the
trace's `cleanDeleted "birb.json"` event is that unlink applied to the
manifest path `.birb/birb.json`.  The manifest was present before the
run (the engine loaded it) and is gone after it, so the stored
manifest's contents are not identical before and after this build,
refuting the claim as universally stated. -/
theorem manifest_mutated_by_clean_cex :
    manifest_after_build cexEnvC8 cexFsC8 = none
    ∧ cexEnvC8.load0 = some cexCfgC8
    ∧ Event.cleanDeleted "birb.json" ∈ (build_project cexEnvC8 cexFsC8 []).2 := by
  refine ⟨rfl, rfl, ?_⟩
  decide

/-- C8 amended: the engine never writes or rewrites the manifest — no
`writeManifest` event can appear in a run's trace, and the versioning
knobs `auto_increment` and `increment_type` are inert: replacing them in
both loaded copies changes neither the run nor the resulting on-disk
manifest beyond those fields (in particular no increment is ever applied
to the stored version).  The manifest file's contents are identical
before and after the build except in one case the counterexample forces:
when the cleanup stage, enabled and pointed at the manifest directory
`.birb`, unlinks the child `birb.json`, the manifest file is deleted —
and that deletion shows up in the trace as the cleanup's own event. -/
theorem manifest_untouched_except_clean_unlink (env : Env) (fs : Option (List FSEntry))
    (cwd : List String) (ai : Bool) (it : String) :
    (∀ config, Event.writeManifest config ∉ (build_project env fs cwd).2)
    ∧ (∀ config, env.load0 = some config →
        (config.build.clean_before_build
          && cleanUnlinksManifest config.build.output_directory fs) = false →
        manifest_after_build env fs = env.load0)
    ∧ (∀ config, env.load0 = some config →
        config.build.clean_before_build = true →
        cleanUnlinksManifest config.build.output_directory fs = true →
        manifest_after_build env fs = none
          ∧ Event.cleanDeleted "birb.json" ∈ (build_project env fs cwd).2)
    ∧ build_project
        { env with
          load0 := env.load0.map (fun cfg => setIncrementFields cfg ai it)
          loadHook := env.loadHook.map (fun cfg => setIncrementFields cfg ai it) }
        fs cwd
      = build_project env fs cwd
    ∧ manifest_after_build
        { env with
          load0 := env.load0.map (fun cfg => setIncrementFields cfg ai it)
          loadHook := env.loadHook.map (fun cfg => setIncrementFields cfg ai it) }
        fs
      = (manifest_after_build env fs).map (fun cfg => setIncrementFields cfg ai it) := by
  refine ⟨?_, ?_, ?_, ?_, ?_⟩
  · intro config0 hmm
    rcases h : env.load0 with _ | config
    · simp [build_project, h] at hmm
    · rw [build_project_trace env fs cwd config h] at hmm
      rcases List.mem_append.mp hmm with hmm | hmm
      · exact not_mem_ite_clean (e := Event.writeManifest config0) rfl _ fs hmm
      · rcases buildPhase_events env config cwd _ hmm with ht | ht | ht
        · exact Bool.noConfusion ht
        · exact Event.noConfusion ht
        · exact Event.noConfusion ht
  · intro config h hcl
    simp only [manifest_after_build, h]
    rw [if_neg (by rw [hcl]; exact Bool.false_ne_true)]
  · intro config h hc1 hc2
    constructor
    · simp only [manifest_after_build, h]
      rw [if_pos (by rw [hc1, hc2]; rfl)]
    · rw [build_project_trace env fs cwd config h]
      apply List.mem_append.mpr
      apply Or.inl
      rw [hc1, if_pos rfl]
      rw [cleanUnlinksManifest.eq_def] at hc2
      simp only [Bool.and_eq_true] at hc2
      obtain ⟨-, hc2⟩ := hc2
      rcases fs with _ | entries
      · exact Bool.noConfusion hc2
      · obtain ⟨en, hen, hf⟩ := List.any_eq_true.mp hc2
        have hev : cleanEntry en = Event.cleanDeleted "birb.json" := by
          cases en with
          | file n d =>
            simp only [Bool.and_eq_true] at hf
            obtain ⟨hn, hd⟩ := hf
            have hn2 : n = "birb.json" := eq_of_beq hn
            subst hn2
            subst hd
            rfl
          | symlink n d =>
            simp only [Bool.and_eq_true] at hf
            obtain ⟨hn, hd⟩ := hf
            have hn2 : n = "birb.json" := eq_of_beq hn
            subst hn2
            subst hd
            rfl
          | dir n e d =>
            exact Bool.noConfusion hf
        show Event.cleanDeleted "birb.json" ∈ entries.map cleanEntry
        exact hev ▸ List.mem_map_of_mem cleanEntry hen
  · rcases env with ⟨l0, lh, sh, ga, gc⟩
    rcases l0 with _ | cfg0 <;> rcases lh with _ | cfgh
    · rfl
    · rcases cfgh with ⟨pn, ⟨a1, i1, cv⟩, bld, git⟩
      rfl
    · rcases cfg0 with ⟨pn, ⟨a1, i1, cv⟩, bld, git⟩
      rfl
    · rcases cfg0 with ⟨pn, ⟨a1, i1, cv⟩, bld, git⟩
      rcases cfgh with ⟨pn2, ⟨a2, i2, cv2⟩, bld2, git2⟩
      rfl
  · rcases env with ⟨l0, lh, sh, ga, gc⟩
    rcases l0 with _ | cfg0
    · rfl
    · rcases cfg0 with ⟨pn, vers, bld, git⟩
      show (if bld.clean_before_build && cleanUnlinksManifest bld.output_directory fs
          then none
          else some (setIncrementFields ⟨pn, vers, bld, git⟩ ai it))
        = Option.map (fun cfg => setIncrementFields cfg ai it)
            (if bld.clean_before_build && cleanUnlinksManifest bld.output_directory fs
              then none
              else some ⟨pn, vers, bld, git⟩)
      split
      · rfl
      · rfl

/-- Manifest for the C8 witness: cleanup is on but the output directory
is the ordinary `./builds`. -/
def wCfgC8 : BirbConfig :=
  sampleConfig [("windows", some "b")] "make build" true true []

/-- Environment for the C8 witness. -/
def wEnvC8 : Env :=
  { load0 := some wCfgC8
    loadHook := some wCfgC8
    shell_ok := fun _ => true
    git_add_ok := true
    git_commit_ok := true }

/-- Listing of `./builds` for the C8 witness: even a file named
`birb.json` there is not the manifest. -/
def wFsC8 : Option (List FSEntry) := some [FSEntry.file "birb.json" true]

theorem manifest_untouched_except_clean_unlink_witness :
    manifest_after_build wEnvC8 wFsC8 = wEnvC8.load0 :=
  (manifest_untouched_except_clean_unlink wEnvC8 wFsC8 [] true "patch").2.1
    wCfgC8 rfl (by decide)

/-- C9: a manifest whose `platform_build_commands` mapping holds a
non-null entry under the key `"custom"` — as both create flows produce,
see the last conjunct for `interactive_create` — is built in
multi-platform mode: the custom-command branch is unreachable
(no `customMode` event), and that entry is executed as an ordinary
platform target labelled `"custom"`. -/
theorem custom_entry_runs_as_platform_target (env : Env) (fs : Option (List FSEntry))
    (cwd : List String) (config : BirbConfig) (ccmd : String)
    (h : env.load0 = some config)
    (hc : ("custom", some ccmd) ∈ config.build.platform_build_commands) :
    Event.multiPlatformMode ∈ (build_project env fs cwd).2
    ∧ Event.customMode ∉ (build_project env fs cwd).2
    ∧ Event.buildingFor "custom" ∈ (build_project env fs cwd).2
    ∧ Event.execCmd ccmd (env.shell_ok ccmd) ∈ (build_project env fs cwd).2
    ∧ (∀ a : CreateAnswers,
        ("custom", some (if a.custom_cmd == "" then "make build" else a.custom_cmd))
          ∈ ((interactive_create a).1).build.platform_build_commands) := by
  have hm : (config.build.platform_build_commands.any fun pc => pc.2.isSome) = true :=
    List.any_eq_true.mpr ⟨("custom", some ccmd), hc, rfl⟩
  refine ⟨multi_mode_mem env fs cwd config h hm,
    custom_mode_not_mem env fs cwd config h hm, ?_, ?_, ?_⟩
  · rw [build_project_trace env fs cwd config h, buildPhase_multi_trace env config cwd hm]
    apply List.mem_append.mpr
    apply Or.inr
    apply List.mem_cons.mpr
    apply Or.inr
    apply List.mem_flatten.mpr
    refine ⟨(buildTarget env config.versioning.current_version
      config.git_integration.vcs_push_command cwd ("custom", some ccmd)).2,
      List.mem_map.mpr ⟨("custom", some ccmd), hc, rfl⟩, ?_⟩
    by_cases hs : env.shell_ok ccmd = true
    · rw [buildTarget_some_ok env _ _ cwd "custom" ccmd hs]
      simp
    · rw [Bool.not_eq_true] at hs
      rw [buildTarget_some_fail env _ _ cwd "custom" ccmd hs]
      simp
  · rw [build_project_trace env fs cwd config h, buildPhase_multi_trace env config cwd hm]
    apply List.mem_append.mpr
    apply Or.inr
    apply List.mem_cons.mpr
    apply Or.inr
    apply List.mem_flatten.mpr
    refine ⟨(buildTarget env config.versioning.current_version
      config.git_integration.vcs_push_command cwd ("custom", some ccmd)).2,
      List.mem_map.mpr ⟨("custom", some ccmd), hc, rfl⟩, ?_⟩
    by_cases hs : env.shell_ok ccmd = true
    · rw [hs, buildTarget_some_ok env _ _ cwd "custom" ccmd hs]
      simp
    · rw [Bool.not_eq_true] at hs
      rw [hs, buildTarget_some_fail env _ _ cwd "custom" ccmd hs]
      simp
  · intro a
    simp [interactive_create, create_birb_json]

/-- Manifest for the C9 witness: the mapping itself carries the
`"custom"` entry, as the tool's create flows write it. -/
def wCfgC9 : BirbConfig :=
  sampleConfig [("windows", none), ("custom", some "make build")] "make build"
    false true []

/-- Environment for the C9 witness. -/
def wEnvC9 : Env :=
  { load0 := some wCfgC9
    loadHook := some wCfgC9
    shell_ok := fun _ => true
    git_add_ok := true
    git_commit_ok := true }

theorem custom_entry_runs_as_platform_target_witness :
    Event.buildingFor "custom" ∈ (build_project wEnvC9 none []).2 :=
  (custom_entry_runs_as_platform_target wEnvC9 none [] wCfgC9 "make build" rfl
    (by decide)).2.2.1

/-- Environment for the C10 counterexample: the manifest is present for
the engine's load but gone by hook time. -/
def cexEnvC10 : Env :=
  { load0 := some (sampleConfig [("windows", some "b")] "make build" false true [])
    loadHook := none
    shell_ok := fun _ => true
    git_add_ok := true
    git_commit_ok := true }

/-- C10 counterexample: when the manifest file is absent at hook time
the hook is not silent — `load_birb_json` prints its not-found error
line (line 95) before the hook returns, so its trace is non-empty. -/
theorem hook_load_error_not_silent_cex :
    git_commit cexEnvC10 [] "1.0.0" "windows" = ([], [Event.loadError])
    ∧ (git_commit cexEnvC10 [] "1.0.0" "windows").2 ≠ [] :=
  ⟨rfl, by decide⟩

/-- C10 amended: the hook re-loads the manifest on every invocation and
is driven entirely by that hook-time load (the engine's loaded copy is
irrelevant to it): an absent manifest makes it print the not-found error
line and perform no commit and no directory change, hook-time
`auto_commit = false` makes it a true no-op, otherwise the commit
message is formatted from the hook-time template; and its result depends
only on the hook-time load and the two git outcomes — not on `load0`. -/
theorem hook_reloads_manifest_at_hook_time (env : Env) (cwd : List String)
    (version platform : String) :
    (env.loadHook = none →
      git_commit env cwd version platform = (cwd, [Event.loadError]))
    ∧ (∀ config, env.loadHook = some config →
        config.git_integration.auto_commit = false →
        git_commit env cwd version platform = (cwd, []))
    ∧ (∀ config, env.loadHook = some config →
        config.git_integration.auto_commit = true →
        ((git_commit env cwd version platform).2).head?
          = some (Event.commitMsg (formatCommitMessage
              config.git_integration.commit_message_template version platform)))
    ∧ (∀ env' : Env, env'.loadHook = env.loadHook →
        env'.git_add_ok = env.git_add_ok → env'.git_commit_ok = env.git_commit_ok →
        git_commit env' cwd version platform = git_commit env cwd version platform) := by
  refine ⟨?_, ?_, ?_, ?_⟩
  · intro h
    simp [git_commit, h]
  · intro config hl hac
    simp [git_commit, hl, hac]
  · intro config hl hac
    simp only [git_commit, hl]
    rw [if_neg (by intro hcc; rw [hac] at hcc; exact Bool.noConfusion hcc)]
    split_ifs <;> rfl
  · intro env' h1 h2 h3
    rcases env with ⟨l0, lh, sh, ga, gc⟩
    rcases env' with ⟨l0x, lhx, shx, gax, gcx⟩
    dsimp only at h1 h2 h3
    subst h1
    subst h2
    subst h3
    rfl

/-- Environment for the C10 witness: hook-time load present but with
`auto_commit = false`. -/
def wEnvC10 : Env :=
  { load0 := none
    loadHook := some (sampleConfig [] "make build" false false [])
    shell_ok := fun _ => true
    git_add_ok := true
    git_commit_ok := true }

theorem hook_reloads_manifest_at_hook_time_witness :
    git_commit wEnvC10 [] "v" "p" = ([], []) :=
  (hook_reloads_manifest_at_hook_time wEnvC10 [] "v" "p").2.1
    (sampleConfig [] "make build" false false []) rfl rfl

end Birb
